import Mathlib

/-!
# Verification of the simple-html-to-pdf layout engine

Shallow embedding of the HTML-to-PDF layout code:
* `parseSpacing` from `src/common.js` (string shorthand version),
* the layout/pagination engine from `src/unnamed/part_001`
  (`insertHtmlToPdf`, `processNode`, `checkForNewPage`,
  `flushInlineElements`, `renderTextNode`, `getTextDimensions`,
  `getElementDimensions`, `renderElementBackground`, `handleImageElement`).

JavaScript numbers are modelled as rationals (`ℚ`); CSS string values are
kept as strings and parsed with faithful models of `parseInt` /
`parseFloat` (decimal forms, as produced for CSS lengths; exponent forms
do not occur in the inputs the engine reads).  The JS truthiness idiom
`parseFloat(x) || d` (which replaces both `NaN` and `0` by `d`) is
modelled by `jsOrQ` / `jsOrI` on `Option` results.
-/

/-- A JavaScript value that is either a number or a string (the
`parseSpacing` record in `src/common.js` stores split tokens, which are
strings, except in the default branch which stores the number `0`). -/
inductive JSVal where
  | num (q : ℚ)
  | str (s : String)
deriving Repr, DecidableEq

/-- Digits to the natural number they denote (most significant first). -/
def digitsToNat (ds : List Char) : ℕ :=
  ds.foldl (fun n c => 10 * n + (c.toNat - 48)) 0

/-- Model of JavaScript `parseInt` on CSS-style strings: skip leading
whitespace, optional sign, then the longest digit prefix; `none` models
`NaN` (no digits). Trailing garbage such as `"px"` is ignored, as in JS. -/
def jsParseInt (s : String) : Option ℤ :=
  let l := s.data.dropWhile Char.isWhitespace
  let signAndRest : ℤ × List Char :=
    match l with
    | '-' :: t => (-1, t)
    | '+' :: t => (1, t)
    | _ => (1, l)
  let ds := signAndRest.2.takeWhile Char.isDigit
  if ds.isEmpty then none
  else some (signAndRest.1 * (digitsToNat ds : ℤ))

/-- Decidable core of the `parseFloat` model: sign, integer-part value,
fraction-part value and fraction length, or `none` for `NaN`. -/
def jsParseFloatParts (s : String) : Option (ℤ × ℕ × ℕ × ℕ) :=
  let l := s.data.dropWhile Char.isWhitespace
  let signAndRest : ℤ × List Char :=
    match l with
    | '-' :: t => (-1, t)
    | '+' :: t => (1, t)
    | _ => (1, l)
  let intPart := signAndRest.2.takeWhile Char.isDigit
  let rest := signAndRest.2.dropWhile Char.isDigit
  let fracPart : List Char :=
    match rest with
    | '.' :: t => t.takeWhile Char.isDigit
    | _ => []
  if intPart.isEmpty ∧ fracPart.isEmpty then none
  else some (signAndRest.1, digitsToNat intPart, digitsToNat fracPart, fracPart.length)

/-- Model of JavaScript `parseFloat` on CSS-style strings: skip leading
whitespace, optional sign, digits, optional `.` and fraction digits;
`none` models `NaN`. Trailing garbage such as `"px"` is ignored (CSS
computed values never use exponent notation). -/
def jsParseFloat (s : String) : Option ℚ :=
  (jsParseFloatParts s).map fun p =>
    (p.1 : ℚ) * ((p.2.1 : ℚ) + (p.2.2.1 : ℚ) / (10 : ℚ) ^ p.2.2.2)

/-- `v || d` for a parsed number: JS treats both `NaN` (here `none`) and
`0` as falsy. -/
def jsOrQ (v : Option ℚ) (d : ℚ) : ℚ :=
  match v with
  | some x => if x = 0 then d else x
  | none => d

/-- `v || d` for a parsed integer (`parseInt(x) || d`). -/
def jsOrI (v : Option ℤ) (d : ℤ) : ℤ :=
  match v with
  | some x => if x = 0 then d else x
  | none => d

/-- `s || d` for strings: the empty string is falsy in JS. -/
def jsOrS (s d : String) : String :=
  if s = "" then d else s

/-- Model of JavaScript `String.prototype.trim` (both ends). -/
def jsTrim (s : String) : String :=
  ⟨((s.data.dropWhile Char.isWhitespace).reverse.dropWhile
      Char.isWhitespace).reverse⟩

mutual

/-- Auxiliary for `jsSplitWs`: `acc` holds the (reversed) characters of
the token being read; on a whitespace character the token is emitted and
the rest of the whitespace run is skipped by `splitWsSkip`. -/
def splitWsAux (acc : List Char) : List Char → List String
  | [] => [⟨acc.reverse⟩]
  | c :: rest =>
    if c.isWhitespace then
      (⟨acc.reverse⟩ : String) :: splitWsSkip rest
    else
      splitWsAux (c :: acc) rest

/-- Skip the remainder of a whitespace run; a run that reaches the end of
the input contributes a trailing empty token (as JS `split` does). -/
def splitWsSkip : List Char → List String
  | [] => [""]
  | c :: rest =>
    if c.isWhitespace then splitWsSkip rest else splitWsAux [c] rest

end

/-- Model of JavaScript `value.split(/\s+/)`: split at maximal whitespace
runs; a leading (resp. trailing) run contributes a leading (resp.
trailing) empty token, and the empty string yields `[""]` — exactly as in
JS, where `split` on a string never returns an empty array. -/
def jsSplitWs (s : String) : List String :=
  splitWsAux [] s.data

/-- The four-sided record returned by `parseSpacing` (`MarginPadding` in
`src/common.js`). -/
structure MarginPadding where
  top : JSVal
  right : JSVal
  bottom : JSVal
  left : JSVal
deriving Repr, DecidableEq

/-- The branch structure of `parseSpacing` over the split token array
`items` (`src/common.js` lines 32–67): `>= 4`, `3`, `2`, `1` tokens map
positionally; the final branch returns the number `0` on all sides. -/
def spacingFromItems : List String → MarginPadding
  | i0 :: i1 :: i2 :: i3 :: _ => ⟨.str i0, .str i1, .str i2, .str i3⟩
  | [i0, i1, i2] => ⟨.str i0, .str i1, .str i2, .str i1⟩
  | [i0, i1] => ⟨.str i0, .str i1, .str i0, .str i1⟩
  | [i0] => ⟨.str i0, .str i0, .str i0, .str i0⟩
  | [] => ⟨.num 0, .num 0, .num 0, .num 0⟩

/-- `parseSpacing` from `src/common.js` (lines 30–68): split the input
string on whitespace runs and map the tokens onto the four sides. -/
def parseSpacing (value : String) : MarginPadding :=
  spacingFromItems (jsSplitWs value)

/-! ## The layout engine of `src/unnamed/part_001`

The engine works on a tree of styled DOM nodes.  Computed styles are an
input produced by the external `jsdom`/`juice` collaborators; each
element node of the embedded tree carries its computed-style record,
whose values are the CSS strings the engine parses.  The text-metrics
collaborator `pdf.getTextWidth` is modelled as an injected function of
the font state the engine sets (`setFontSize`/`setFont`) and the text. -/

/-- The font state the engine installs before measuring or drawing text
(`pdf.setFontSize(fontSize)` followed by `pdf.setFont(family, variant)`). -/
structure FontCtx where
  size : ℤ
  family : String
  variant : String
deriving Repr, DecidableEq

/-- The injected text-measurement capability (`pdf.getTextWidth` under a
given font state). -/
def Measure : Type := FontCtx → String → ℚ

/-- A computed-style record as read by the engine (all values are the raw
CSS strings of the `CSSStyleDeclaration`; absent values are `""`, which is
falsy in JS exactly like the empty computed value). -/
structure Style where
  display : String := ""
  visibility : String := ""
  fontSize : String := ""
  lineHeight : String := ""
  fontWeight : String := ""
  fontStyle : String := ""
  fontFamily : String := ""
  textAlign : String := ""
  color : String := ""
  backgroundColor : String := ""
  paddingTop : String := ""
  paddingRight : String := ""
  paddingBottom : String := ""
  paddingLeft : String := ""
  marginTop : String := ""
  marginRight : String := ""
  marginBottom : String := ""
  marginLeft : String := ""
  borderTopWidth : String := ""
  borderRightWidth : String := ""
  borderBottomWidth : String := ""
  borderLeftWidth : String := ""
  borderTopColor : String := ""
  borderRightColor : String := ""
  borderBottomColor : String := ""
  borderLeftColor : String := ""
deriving Repr, DecidableEq

/-- Four-sided numeric record (padding / margin / border objects built by
`getElementDimensions`). -/
structure Edges where
  top : ℚ
  right : ℚ
  bottom : ℚ
  left : ℚ
deriving Repr, DecidableEq

/-- Return value of `getElementDimensions` (`src/unnamed/part_001`
lines 497–546). -/
structure Dims where
  isBlock : Bool
  padding : Edges
  margin : Edges
  border : Edges
  innerWidth : Option ℚ
deriving Repr, DecidableEq

/-- ASCII uppercasing, modelling `String.prototype.toUpperCase` on the
tag names the engine sees. -/
def jsToUpper (s : String) : String :=
  ⟨s.data.map Char.toUpper⟩

/-- The `tagNameToFontSize` table from `src/constants.mjs`. -/
def tagNameToFontSize : String → Option ℤ
  | "H1" => some 20
  | "H2" => some 18
  | "H3" => some 16
  | "H4" => some 14
  | "H5" => some 12
  | "H6" => some 10
  | "P" => some 10
  | _ => none

/-- `tagNameToFontSize[tagName] || tagNameToFontSize.P` (the further
`|| 12` in the source is dead because `P` maps to the truthy `10`). -/
def tagDefaultSize (tagName : String) : ℤ :=
  match tagNameToFontSize tagName with
  | some v => if v = 0 then 10 else v
  | none => 10

/-- `(tagName && tagNameToFontSize[tagName.toUpperCase()]) ||
tagNameToFontSize.P || 12`: an empty tag name is falsy, otherwise the
table is consulted with the uppercased tag. -/
def fontSizeTagDefault (tagName : String) : ℤ :=
  if tagName = "" then 10 else tagDefaultSize (jsToUpper tagName)

/-- The font-size chain shared by `getTextDimensions` (lines 465–469) and
`renderTextNode` (lines 562–566):
`parseInt(style.fontSize) || tag default`. -/
def fontSizeChain (styleFontSize : String) (tagName : String) : ℤ :=
  match jsParseInt styleFontSize with
  | some v => if v = 0 then fontSizeTagDefault tagName else v
  | none => fontSizeTagDefault tagName

/-- `parseFontStyle` (lines 437–453). -/
def parseFontStyle (fontWeight fontStyleValue : String) : String :=
  let s :=
    if fontWeight = "bold" ∨ fontWeight = "bolder" ∨
        (match jsParseInt fontWeight with
         | some v => decide (700 ≤ v)
         | none => false) = true then
      "bold"
    else "normal"
  if fontStyleValue = "italic" ∨ fontStyleValue = "oblique" then
    if s = "bold" then "bolditalic" else "italic"
  else s

/-- The font state installed by both `getTextDimensions` (lines 471–481)
and `renderTextNode` (lines 562–579): clamp the chained font size to a
minimum of 8, then select bold or regular face. -/
def mkFontCtx (style : Style) (tagName : String) : FontCtx :=
  let fontSize := max (fontSizeChain style.fontSize tagName) 8
  if parseFontStyle style.fontWeight style.fontStyle = "bold" then
    ⟨fontSize, jsOrS style.fontFamily "GoNotoKurrentBold", "bold"⟩
  else
    ⟨fontSize, jsOrS style.fontFamily "GoNotoKurrentRegular", "normal"⟩

/-- `parseFloat(style.lineHeight) || 1.2`, the line-height multiplier. -/
def lineHeightMult (style : Style) : ℚ :=
  jsOrQ (jsParseFloat style.lineHeight) (6 / 5)

/-- `getTextDimensions` (lines 463–488): `(width, height)` where
`height = fontSize * (lineHeight || 1.2) / pdf.internal.scaleFactor`. -/
def getTextDimensions (scale : ℚ) (measure : Measure) (text : String)
    (style : Style) (tagName : String) : ℚ × ℚ :=
  let ctx := mkFontCtx style tagName
  (measure ctx text, (ctx.size : ℚ) * lineHeightMult style / scale)

/-- `getElementDimensions` (lines 497–546). -/
def getElementDimensions (style : Style) (contentWidth : ℚ) : Dims :=
  let isBlock := style.display = "block" ∨ style.display = "flex" ∨
    style.display = "grid" ∨ style.display = "table"
  let marginLeft := jsOrQ (jsParseFloat style.marginLeft) 0
  let marginRight := jsOrQ (jsParseFloat style.marginRight) 0
  { isBlock := isBlock
    padding :=
      ⟨jsOrQ (jsParseFloat style.paddingTop) 0,
        jsOrQ (jsParseFloat style.paddingRight) 0,
        jsOrQ (jsParseFloat style.paddingBottom) 0,
        jsOrQ (jsParseFloat style.paddingLeft) 0⟩
    margin :=
      ⟨jsOrQ (jsParseFloat style.marginTop) 0, marginRight,
        jsOrQ (jsParseFloat style.marginBottom) 0, marginLeft⟩
    border :=
      ⟨jsOrQ (jsParseFloat style.borderTopWidth) 0,
        jsOrQ (jsParseFloat style.borderRightWidth) 0,
        jsOrQ (jsParseFloat style.borderBottomWidth) 0,
        jsOrQ (jsParseFloat style.borderLeftWidth) 0⟩
    innerWidth := if isBlock then some (contentWidth - marginLeft - marginRight) else none }

/-- The greedy word-wrap loop of `renderTextNode` (lines 586–606), as a
recursion over the word list; `currentLine`/`currentWidth` are the loop's
mutable accumulator. Each closed line is emitted in order; the word that
does not fit starts the next line; an empty current line is never
emitted. -/
def wrapWordsAux (measureW : String → ℚ) (maxWidth : ℚ) :
    List String → List String → ℚ → List (List String)
  | [], currentLine, _ =>
    if currentLine.length > 0 then [currentLine] else []
  | w :: ws, currentLine, currentWidth =>
    let wordWidth := measureW w
    if currentWidth + wordWidth ≤ maxWidth then
      wrapWordsAux measureW maxWidth ws (currentLine ++ [w]) (currentWidth + wordWidth)
    else
      (if currentLine.length > 0 then [currentLine] else []) ++
        wrapWordsAux measureW maxWidth ws [w] wordWidth

/-- The lines produced by the word-wrap loop, as lists of words
(`renderTextNode` joins each with a single space on emission);
`measureW` is applied to `word + " "` by the caller, as in
`pdf.getTextWidth(word + " ")`. -/
def wrapLines (measureW : String → ℚ) (maxWidth : ℚ) (words : List String) :
    List (List String) :=
  wrapWordsAux measureW maxWidth words [] 0

/-- One abstract drawing instruction, mirroring the `jsPDF` calls the
engine makes (`text`, `rect(...,"F")`, `line`, `addImage`, `addPage` and
the debug `rect`).  Color-bearing instructions carry the CSS color string
handed to `applyColor`; resolving it to RGB is the backend's job. -/
inductive Instr where
  | placeText (text : String) (x y : ℚ) (font : FontCtx) (color : String)
  | fillRect (x y w h : ℚ) (color : String)
  | strokeLine (x1 y1 x2 y2 lineWidth : ℚ) (color : String)
  | placeImage (src : String) (x y w h : ℚ)
  | addPage
  | debugRect (x y w h : ℚ)
deriving Repr, DecidableEq

/-- The constructor kind of an instruction (used to state ordering facts
without spelling out coordinates). -/
inductive InstrKind where
  | text
  | rect
  | line
  | image
  | page
  | debug
deriving Repr, DecidableEq

/-- Kind of an instruction. -/
def Instr.kind : Instr → InstrKind
  | .placeText .. => .text
  | .fillRect .. => .rect
  | .strokeLine .. => .line
  | .placeImage .. => .image
  | .addPage => .page
  | .debugRect .. => .debug

/-- `renderTextNode` (lines 559–624): trim-guard, font selection, greedy
word wrap, then one `pdf.text` per line with `textAlign` offsets; returns
the new y (`y + lines.length * lineHeight / scaleFactor`) and the emitted
instructions. -/
def renderTextNode (scale : ℚ) (measure : Measure) (text : String)
    (x y : ℚ) (style : Style) (maxWidth : ℚ) (tagName : String) :
    ℚ × List Instr :=
  if jsTrim text = "" then (y, [])
  else
    let ctx := mkFontCtx style tagName
    let lineHeight := (ctx.size : ℚ) * lineHeightMult style
    let textAlign := jsOrS style.textAlign "left"
    let color := jsOrS style.color "black"
    let words := jsSplitWs (jsTrim text)
    let lines := (wrapLines (fun w => measure ctx (w ++ " ")) maxWidth words).map
      (String.intercalate " ")
    let instrs := lines.enum.map fun p =>
      let lineWidth := measure ctx p.2
      let xPos :=
        if textAlign = "center" then x + (maxWidth - lineWidth) / 2
        else if textAlign = "right" then x + maxWidth - lineWidth
        else x
      Instr.placeText p.2 xPos (y + (p.1 : ℚ) * lineHeight / scale) ctx color
    (y + (lines.length : ℚ) * lineHeight / scale, instrs)

/-- The `drawBorderLine` helper of `renderElementBackground`
(lines 673–679): draw only when the width is positive, with the line
width divided by the scale factor and `color || "black"`. -/
def drawBorderLine (scale : ℚ) (sx sy ex ey wd : ℚ) (color : String) :
    List Instr :=
  if wd > 0 then [.strokeLine sx sy ex ey (wd / scale) (jsOrS color "black")]
  else []

/-- `renderElementBackground` (lines 636–724): background fill (inset by
half the borders) when the background color is set, then the four border
lines in the order top, right, bottom, left.  The graphics-state
save/restore calls draw nothing and are not modelled. -/
def renderElementBackground (scale : ℚ) (x y w h : ℚ) (style : Style)
    (dims : Dims) : List Instr :=
  let bg := style.backgroundColor
  let bgPart : List Instr :=
    if bg ≠ "" ∧ bg ≠ "transparent" ∧ bg ≠ "rgba(0, 0, 0, 0)" then
      [.fillRect (x + dims.border.left / 2) (y + dims.border.top / 2)
        (w - (dims.border.left + dims.border.right) / 2)
        (h - (dims.border.top + dims.border.bottom) / 2) bg]
    else []
  bgPart ++
    drawBorderLine scale x (y + dims.border.top / 2) (x + w)
      (y + dims.border.top / 2) dims.border.top style.borderTopColor ++
    drawBorderLine scale (x + w - dims.border.right / 2) y
      (x + w - dims.border.right / 2) (y + h) dims.border.right
      style.borderRightColor ++
    drawBorderLine scale x (y + h - dims.border.bottom / 2) (x + w)
      (y + h - dims.border.bottom / 2) dims.border.bottom
      style.borderBottomColor ++
    drawBorderLine scale (x + dims.border.left / 2) y
      (x + dims.border.left / 2) (y + h) dims.border.left
      style.borderLeftColor

/-- The state of an `<img>` element as `handleImageElement` reads it. -/
structure ImgData where
  complete : Bool
  naturalWidth : ℚ
  naturalHeight : ℚ
  widthAttr : String
  heightAttr : String
  src : String
deriving Repr, DecidableEq

/-- `parseFloat(img.width) || img.naturalWidth`. -/
def imgWidthOf (img : ImgData) : ℚ :=
  jsOrQ (jsParseFloat img.widthAttr) img.naturalWidth

/-- `parseFloat(img.height) || img.naturalHeight`. -/
def imgHeightOf (img : ImgData) : ℚ :=
  jsOrQ (jsParseFloat img.heightAttr) img.naturalHeight

/-- `imgWidth > maxWidth ? maxWidth / imgWidth : 1`. -/
def imgScaleOf (img : ImgData) (maxWidth : ℚ) : ℚ :=
  if imgWidthOf img > maxWidth then maxWidth / imgWidthOf img else 1

/-- `handleImageElement` (lines 735–761): skip (returning the unchanged
`y`) when the image is not loaded or has no natural width; otherwise
scale down to `maxWidth` (never up), preserve the aspect ratio, place the
image and advance by the scaled height.  The `catch` branch (an external
`addImage` failure) is outside the model. -/
def handleImageElement (img : ImgData) (x y maxWidth : ℚ) : ℚ × List Instr :=
  if img.complete = false ∨ img.naturalWidth = 0 then (y, [])
  else
    let finalWidth := imgWidthOf img * imgScaleOf img maxWidth
    let finalHeight := imgHeightOf img * imgScaleOf img maxWidth
    (y + finalHeight, [.placeImage img.src x y finalWidth finalHeight])

/-- A node of the DOM tree the engine walks: a text node, an element with
its computed style (plus the `height` attribute read for `IMG`
estimates), or any other node kind (comments etc., `nodeType` outside
{1, 3}). -/
inductive DomNode where
  | text (content : String)
  | element (tagName : String) (heightAttr : String) (style : Style)
      (children : List DomNode)
  | other

/-- One entry of `pendingInlineElements` (always `type: "text"`; the
engine pushes no other kind). -/
structure PendingEl where
  text : String
  x : ℚ
  style : Style
  tagName : String
deriving Repr, DecidableEq

/-- Page geometry and collaborators fixed for one `insertHtmlToPdf`
call. -/
structure Env where
  pageWidth : ℚ
  pageHeight : ℚ
  pagePadding : ℚ
  scale : ℚ
  measure : Measure
  debug : Bool

/-- `contentWidth = pageWidth - pagePadding * 2` (line 789). -/
def Env.contentWidth (env : Env) : ℚ :=
  env.pageWidth - env.pagePadding * 2

/-- The engine's mutable state: cursor, inline-run buffer, number of
`addPage` calls, and the instructions emitted so far (in order). -/
structure EngState where
  currentX : ℚ
  currentY : ℚ
  inlineXOffset : ℚ
  inlineHeight : ℚ
  pending : List PendingEl
  pagesAdded : ℕ
  out : List Instr
deriving Repr, DecidableEq

/-- `checkForNewPage` (lines 837–844): if
`currentY + neededHeight > pageHeight - pagePadding` then add a page,
reset `currentY` to `pagePadding` and return `true`; otherwise leave the
state unchanged and return `false`. -/
def checkForNewPage (env : Env) (st : EngState) (neededHeight : ℚ) :
    Bool × EngState :=
  if st.currentY + neededHeight > env.pageHeight - env.pagePadding then
    (true,
      { st with
        currentY := env.pagePadding
        pagesAdded := st.pagesAdded + 1
        out := st.out ++ [.addPage] })
  else (false, st)

/-- `flushInlineElements` (lines 801–834): render every pending inline
run bottom-aligned to the tallest run (`baseline = maxHeight - height`),
at the stored x and at width `contentWidth`, advance `currentY` by
`maxHeight` and clear the buffer. -/
def flushInlineElements (env : Env) (st : EngState) : EngState :=
  match st.pending with
  | [] => st
  | p :: ps =>
    let heightOf := fun (el : PendingEl) =>
      (getTextDimensions env.scale env.measure el.text el.style el.tagName).2
    let maxHeight := (ps.map heightOf).foldl max (heightOf p)
    let instrs := (p :: ps).map fun el =>
      (renderTextNode env.scale env.measure el.text el.x
        (st.currentY + (maxHeight - heightOf el)) el.style env.contentWidth
        el.tagName).2
    { st with
      currentY := st.currentY + maxHeight
      pending := []
      inlineXOffset := 0
      inlineHeight := 0
      out := st.out ++ instrs.flatten }

/-- The estimated minimum height used by the block-entry page-break
pre-check (lines 945–951): vertical padding plus the image `height`
attribute (`|| 100`) for `IMG`, or `parseFloat(style.lineHeight) || 20`
otherwise.  Border widths do not enter the estimate. -/
def estimatedBlockHeight (tagName heightAttr : String) (style : Style)
    (dims : Dims) : ℚ :=
  dims.padding.top + dims.padding.bottom +
    (if tagName = "IMG" then jsOrQ (jsParseFloat heightAttr) 100
     else jsOrQ (jsParseFloat style.lineHeight) 20)

/-- `totalHeight` (lines 996–1001): content height plus vertical padding
and vertical border; margins never enter. -/
def blockTotalHeight (dims : Dims) (contentHeight : ℚ) : ℚ :=
  contentHeight + dims.padding.top + dims.padding.bottom +
    dims.border.top + dims.border.bottom

/-- The tail of the block branch (lines 992–1015): measure the content
height from the cursor, paint background and borders with the realized
total height, then restore `currentX` to the page padding and advance
`currentY` past the box and its bottom margin. -/
def finishBlock (env : Env) (style : Style) (dims : Dims)
    (elementX elementY contentY : ℚ) (st : EngState) : EngState :=
  let contentHeight := st.currentY - contentY
  let totalHeight := blockTotalHeight dims contentHeight
  { st with
    out := st.out ++
      renderElementBackground env.scale elementX elementY
        (dims.innerWidth.getD 0) totalHeight style dims
    currentX := env.pagePadding
    currentY := elementY + totalHeight + dims.margin.bottom }

mutual

/-- `processNode` (lines 847–1032): the recursive depth-first traversal.
Text nodes are buffered as pending inline runs (flushing first when the
parent is block-level or the run does not fit); invisible elements are
skipped; block elements flush, apply margins, run the page pre-check,
lay out children, then paint; non-block `IMG` advances the cursor by the
fixed placeholder 10; other inline elements just recurse. -/
def processNode (env : Env) (parentStyle : Style) (parentTag : String)
    (node : DomNode) (st : EngState) : EngState :=
  match node with
  | .other => st
  | .text content =>
    let text := jsTrim content
    if text = "" then st
    else
      let textDimensions :=
        getTextDimensions env.scale env.measure text parentStyle parentTag
      if parentStyle.display ≠ "block" ∧ parentStyle.display ≠ "inline-block" ∧
          st.inlineXOffset + textDimensions.1 ≤ env.contentWidth then
        { st with
          pending := st.pending ++
            [⟨text, st.currentX + st.inlineXOffset, parentStyle, parentTag⟩]
          inlineXOffset := st.inlineXOffset + textDimensions.1
          inlineHeight := max st.inlineHeight textDimensions.2 }
      else
        let st := flushInlineElements env st
        let st := (checkForNewPage env st textDimensions.2).2
        { st with
          pending := st.pending ++ [⟨text, st.currentX, parentStyle, parentTag⟩]
          inlineXOffset := textDimensions.1
          inlineHeight := textDimensions.2 }
  | .element tag heightAttr style0 children =>
    let tagName := jsToUpper tag
    if style0.display = "none" ∨ style0.visibility = "hidden" then st
    else
      let style :=
        if style0.fontSize = "" then
          { style0 with fontSize := toString (tagDefaultSize tagName) ++ "px" }
        else style0
      let dims := getElementDimensions style env.contentWidth
      if dims.isBlock then
        let st := flushInlineElements env st
        let st := { st with currentY := st.currentY + dims.margin.top }
        let st :=
          (checkForNewPage env st (estimatedBlockHeight tagName heightAttr style dims)).2
        let elementX := st.currentX + dims.margin.left
        let elementWidth := dims.innerWidth.getD 0
        let contentX := elementX + dims.padding.left + dims.border.left
        -- the shadowing `const contentWidth = elementWidth - ...`
        -- (lines 959–964) is computed but never read afterwards
        let elementY := st.currentY
        let contentY := elementY + dims.padding.top + dims.border.top
        let st :=
          if env.debug then
            { st with out := st.out ++ [.debugRect elementX elementY elementWidth 10] }
          else st
        let st := { st with currentX := contentX, currentY := contentY }
        let st := processChildren env style tagName children st
        finishBlock env style dims elementX elementY contentY st
      else if tagName = "IMG" then
        let st := flushInlineElements env st
        { st with currentY := st.currentY + 10 }
      else
        processChildren env style tagName children st

/-- `for (const child of element.childNodes) processNode(child, style)`. -/
def processChildren (env : Env) (parentStyle : Style) (parentTag : String)
    (children : List DomNode) (st : EngState) : EngState :=
  match children with
  | [] => st
  | c :: cs =>
    processChildren env parentStyle parentTag cs
      (processNode env parentStyle parentTag c st)

end

/-- `insertHtmlToPdf` (lines 770–1039), from the point where the DOM and
page geometry exist: start the cursor at the page padding, process the
body node (the root call's `parentStyle` is the empty object and the
body's parent element is `HTML`), then flush the remaining inline runs. -/
def insertHtmlToPdf (env : Env) (body : DomNode) : EngState :=
  let st : EngState :=
    { currentX := env.pagePadding
      currentY := env.pagePadding
      inlineXOffset := 0
      inlineHeight := 0
      pending := []
      pagesAdded := 0
      out := [] }
  flushInlineElements env (processNode env {} "HTML" body st)

/-! ## Concrete fixtures

Small environments, styles and documents used to evaluate the engine at
specific inputs.  `measureZero` is a degenerate text-metrics collaborator
(every text measures 0 wide); width plays no role in the vertical facts
evaluated on these fixtures. -/

/-- A text-metrics collaborator measuring every text as width 0. -/
def measureZero : Measure := fun _ _ => 0

/-- A 120×1000 page with padding 10 and scale factor 1 (content width
100, break limit 990). -/
def envA : Env := ⟨120, 1000, 10, 1, measureZero, false⟩

/-- Degenerate geometry: a 10×10 page with padding 20 — the content
width (−30) and the break limit (−10) are negative. -/
def envBad : Env := ⟨10, 10, 20, 1, measureZero, false⟩

/-- A 120×100 page with padding 10 (content width 100, break limit 90). -/
def envPage100 : Env := ⟨120, 100, 10, 1, measureZero, false⟩

/-- A block box with vertical padding 2/3, vertical border 1/4, vertical
margins 7/9 and a background, used to observe the painted height. -/
def blockBoxNode : DomNode :=
  .element "DIV" ""
    { display := "block", backgroundColor := "blue",
      paddingTop := "2", paddingBottom := "3",
      borderTopWidth := "1", borderBottomWidth := "4",
      marginTop := "7", marginBottom := "9" } []

/-- An inline image element (the browser default display for `img`). -/
def imgInlineNode : DomNode := .element "IMG" "" { display := "inline" } []

/-- A block body with one text child, processed under the degenerate
geometry of `envBad`. -/
def badGeometryDoc : DomNode :=
  .element "BODY" "" { display := "block" } [.text "hi"]

/-- A block whose padding alone (200) exceeds the 90-unit page content
height of `envPage100`. -/
def tallBlockNode : DomNode :=
  .element "P" ""
    { display := "block", backgroundColor := "red", paddingTop := "200" } []

/-- A block with a background and a single text child. -/
def divWithText : DomNode :=
  .element "DIV" "" { display := "block", backgroundColor := "red" }
    [.text "hi"]

/-- A background block nested inside another background block. -/
def nestedDivs : DomNode :=
  .element "DIV" "" { display := "block", backgroundColor := "red" }
    [.element "DIV" "" { display := "block", backgroundColor := "blue" } []]

/-- A style with a background and four distinctly-colored borders. -/
def borderDemoStyle : Style :=
  { backgroundColor := "green", borderTopColor := "t",
    borderRightColor := "r", borderBottomColor := "b",
    borderLeftColor := "l" }

/-- Resolved dimensions with border width 2 on every side. -/
def borderDemoDims : Dims :=
  ⟨true, ⟨0, 0, 0, 0⟩, ⟨0, 0, 0, 0⟩, ⟨2, 2, 2, 2⟩, some 50⟩

/-- A block style with padding, borders and an explicit line height, used
to compare the engine's page-break estimate against the specified one. -/
def estNoBorderStyle : Style :=
  { display := "block", paddingTop := "2", paddingBottom := "3",
    borderTopWidth := "5", borderBottomWidth := "5", lineHeight := "10" }

/-- The estimated minimum block height as the specification words it —
"padding plus border plus one line height" — written here only to be
compared with the engine's `estimatedBlockHeight`. -/
def specEstimatedMinHeight (dims : Dims) (lineH : ℚ) : ℚ :=
  dims.padding.top + dims.padding.bottom +
    dims.border.top + dims.border.bottom + lineH

theorem splitWs_ne_nil (n : ℕ) :
    ∀ l : List Char, l.length ≤ n →
      (∀ acc, splitWsAux acc l ≠ []) ∧ splitWsSkip l ≠ [] := by
  induction n with
  | zero =>
    intro l hl
    rw [Nat.le_zero, List.length_eq_zero] at hl
    subst hl
    simp [splitWsAux, splitWsSkip]
  | succ n ih =>
    intro l hl
    match l with
    | [] => simp [splitWsAux, splitWsSkip]
    | c :: rest =>
      have hrest : rest.length ≤ n := by
        simpa using Nat.le_of_succ_le_succ hl
      constructor
      · intro acc
        rw [splitWsAux]
        split
        · simp
        · exact (ih rest hrest).1 _
      · rw [splitWsSkip]
        split
        · exact (ih rest hrest).2
        · exact (ih rest hrest).1 _

theorem jsSplitWs_ne_nil (s : String) : jsSplitWs s ≠ [] :=
  (splitWs_ne_nil s.data.length s.data le_rfl).1 _

/-! ## Claim C1 — `parseSpacing` totality and shorthand mapping -/

/-- C1 (counterexample): the claim says malformed input yields zero on
all four sides, but `parseSpacing "abc"` returns the token `"abc"`
verbatim on all four sides, not the zero record. -/
theorem c1_malformed_not_zeroed :
    parseSpacing "abc" ≠ ⟨.num 0, .num 0, .num 0, .num 0⟩ := by
  decide

/-- C1 (amended): for every input string `parseSpacing` returns a record
of four tokens mapped positionally (`≥4` tokens → top/right/bottom/left;
3 → left copies right; 2 → bottom/left copy top/right; 1 → all four),
with the tokens returned verbatim as strings; splitting a string always
yields at least one (possibly empty) token, so the all-zero default
branch is unreachable and malformed or missing input is passed through,
not zeroed.  The four shorthand examples hold with string values. -/
theorem c1_parseSpacing_mapping :
    (∀ t0 t1 t2 t3 rest : _,
      spacingFromItems (t0 :: t1 :: t2 :: t3 :: rest) =
        ⟨.str t0, .str t1, .str t2, .str t3⟩) ∧
    (∀ t0 t1 t2 : String,
      spacingFromItems [t0, t1, t2] = ⟨.str t0, .str t1, .str t2, .str t1⟩) ∧
    (∀ t0 t1 : String,
      spacingFromItems [t0, t1] = ⟨.str t0, .str t1, .str t0, .str t1⟩) ∧
    (∀ t0 : String,
      spacingFromItems [t0] = ⟨.str t0, .str t0, .str t0, .str t0⟩) ∧
    (∀ s : String, jsSplitWs s ≠ [] ∧
      ∃ a b c d, parseSpacing s = ⟨.str a, .str b, .str c, .str d⟩) ∧
    parseSpacing "4" = ⟨.str "4", .str "4", .str "4", .str "4"⟩ ∧
    parseSpacing "1 2" = ⟨.str "1", .str "2", .str "1", .str "2"⟩ ∧
    parseSpacing "1 2 3" = ⟨.str "1", .str "2", .str "3", .str "2"⟩ ∧
    parseSpacing "1 2 3 4" = ⟨.str "1", .str "2", .str "3", .str "4"⟩ ∧
    parseSpacing "" = ⟨.str "", .str "", .str "", .str ""⟩ := by
  refine ⟨fun t0 t1 t2 t3 rest => rfl, fun t0 t1 t2 => rfl, fun t0 t1 => rfl,
    fun t0 => rfl, fun s => ⟨jsSplitWs_ne_nil s, ?_⟩,
    by decide, by decide, by decide, by decide, by decide⟩
  rcases h : jsSplitWs s with _ | ⟨a, _ | ⟨b, _ | ⟨c, _ | ⟨d, rest⟩⟩⟩⟩
  · exact absurd h (jsSplitWs_ne_nil s)
  · exact ⟨a, a, a, a, by simp [parseSpacing, h, spacingFromItems]⟩
  · exact ⟨a, b, a, b, by simp [parseSpacing, h, spacingFromItems]⟩
  · exact ⟨a, b, c, b, by simp [parseSpacing, h, spacingFromItems]⟩
  · exact ⟨a, b, c, d, by simp [parseSpacing, h, spacingFromItems]⟩

/-! ## Claim C2 — page-break check -/

/-- C2: `checkForNewPage` breaks exactly when
`currentY + neededHeight > pageHeight - pagePadding`; on a break it adds
a page, resets the cursor to the top padding and returns `true`;
otherwise it leaves the state unchanged and returns `false`. -/
theorem c2_checkForNewPage_spec (env : Env) (st : EngState) (n : ℚ) :
    (st.currentY + n > env.pageHeight - env.pagePadding →
      checkForNewPage env st n =
        (true,
          { st with
            currentY := env.pagePadding
            pagesAdded := st.pagesAdded + 1
            out := st.out ++ [.addPage] })) ∧
    (¬st.currentY + n > env.pageHeight - env.pagePadding →
      checkForNewPage env st n = (false, st)) := by
  constructor <;> intro h <;> simp [checkForNewPage, h]

/-- C2 (witness): with page height 110 and padding 10 (content limit
100), cursor y 95 and needed height 10, the check fires and resets the
cursor to the top padding. -/
theorem c2_checkForNewPage_witness :
    (95 : ℚ) + 10 > 110 - 10 ∧
    checkForNewPage ⟨120, 110, 10, 1, fun _ _ => 0, false⟩
        ⟨10, 95, 0, 0, [], 0, []⟩ 10 =
      (true, ⟨10, 10, 0, 0, [], 1, [.addPage]⟩) := by
  have h : (95 : ℚ) + 10 > 110 - 10 := by norm_num
  exact ⟨h, (c2_checkForNewPage_spec ⟨120, 110, 10, 1, fun _ _ => 0, false⟩
    ⟨10, 95, 0, 0, [], 0, []⟩ 10).1 h⟩

/-! ## Claim C3 — greedy word wrap -/

theorem wrapWordsAux_flatten (m : String → ℚ) (mw : ℚ) :
    ∀ (ws cur : List String) (cw : ℚ),
      (wrapWordsAux m mw ws cur cw).flatten = cur ++ ws := by
  intro ws
  induction ws with
  | nil => intro cur cw; cases cur <;> simp [wrapWordsAux]
  | cons w ws ih =>
    intro cur cw
    rw [wrapWordsAux]
    split
    · rw [ih]; simp
    · cases cur <;> simp [ih]

theorem wrapWordsAux_lines (m : String → ℚ) (mw : ℚ) :
    ∀ (ws cur : List String) (cw : ℚ),
      cw = (cur.map m).sum →
      (cur ≠ [] → cw ≤ mw ∨ ∃ w0, cur = [w0]) →
      ∀ line ∈ wrapWordsAux m mw ws cur cw,
        line ≠ [] ∧ ((line.map m).sum ≤ mw ∨ ∃ w, line = [w]) := by
  intro ws
  induction ws with
  | nil =>
    intro cur cw hsum hinv line hline
    rw [wrapWordsAux] at hline
    rcases cur with _ | ⟨c, cs⟩
    · simp at hline
    · simp at hline
      subst hline
      exact ⟨by simp, by simpa [hsum] using hinv (by simp)⟩
  | cons w ws ih =>
    intro cur cw hsum hinv line hline
    rw [wrapWordsAux] at hline
    split at hline
    · exact ih (cur ++ [w]) (cw + m w) (by simp [hsum]) (fun _ => Or.inl (by assumption))
        line hline
    · rcases List.mem_append.mp hline with hmem | hmem
      · rcases cur with _ | ⟨c, cs⟩
        · simp at hmem
        · simp at hmem
          subst hmem
          exact ⟨by simp, by simpa [hsum] using hinv (by simp)⟩
      · refine ih [w] (m w) (by simp) (fun _ => ?_) line hmem
        by_cases hw : m w ≤ mw
        · exact Or.inl hw
        · exact Or.inr ⟨w, rfl⟩

theorem wrapWordsAux_overwide (m : String → ℚ) (mw : ℚ)
    (hm : ∀ s, 0 ≤ m s) :
    ∀ (ws cur : List String) (cw : ℚ), 0 ≤ cw →
      ∀ w ∈ ws, mw < m w → [w] ∈ wrapWordsAux m mw ws cur cw := by
  have hstay : ∀ (ws : List String) (w : String) (cw : ℚ), mw < cw →
      [w] ∈ wrapWordsAux m mw ws [w] cw := by
    intro ws w cw hcw
    match ws with
    | [] => simp [wrapWordsAux]
    | w2 :: rest =>
      rw [wrapWordsAux]
      have : ¬cw + m w2 ≤ mw := by
        have := hm w2
        push_neg
        linarith
      rw [if_neg this]
      simp
  intro ws
  induction ws with
  | nil => intro cur cw _ w hw; simp at hw
  | cons w2 ws ih =>
    intro cur cw hcw w hw hwide
    rw [wrapWordsAux]
    rcases List.mem_cons.mp hw with rfl | hmem
    · have hno : ¬cw + m w ≤ mw := by push_neg; linarith
      rw [if_neg hno]
      exact List.mem_append_right _ (hstay ws w (m w) hwide)
    · split
      · exact ih _ _ (by have := hm w2; linarith) w hmem hwide
      · exact List.mem_append_right _ (ih _ _ (hm w2) w hmem hwide)

/-- C3: the greedy word wrap of `renderTextNode` packs words while the
accumulated width plus the measured width of the word (with its trailing
space, as measured by the caller) stays within `maxWidth`; it never drops
or reorders a word; every produced line is non-empty and either fits
`maxWidth` or is a single (over-wide) word placed alone; and with
`maxWidth = 100` and three words whose measured width (word plus trailing
space) is 41 each, `renderTextNode` emits exactly two lines — the first
two words, then the third alone. -/
theorem c3_word_wrap :
    (∀ (m : String → ℚ) (mw : ℚ) (ws : List String),
      (wrapLines m mw ws).flatten = ws) ∧
    (∀ (m : String → ℚ) (mw : ℚ) (ws : List String),
      ∀ line ∈ wrapLines m mw ws,
        line ≠ [] ∧ ((line.map m).sum ≤ mw ∨ ∃ w, line = [w])) ∧
    (∀ (m : String → ℚ) (mw : ℚ) (ws : List String),
      (∀ s, 0 ≤ m s) →
      ∀ w ∈ ws, mw < m w → [w] ∈ wrapLines m mw ws) ∧
    renderTextNode 1 (fun _ _ => 41) "aa bb cc" 0 0 { fontSize := "10" }
        100 "P" =
      (24,
        [.placeText "aa bb" 0 0 ⟨10, "GoNotoKurrentRegular", "normal"⟩ "black",
          .placeText "cc" 0 12 ⟨10, "GoNotoKurrentRegular", "normal"⟩ "black"]) := by
  refine ⟨fun m mw ws => wrapWordsAux_flatten m mw ws [] 0,
    fun m mw ws => wrapWordsAux_lines m mw ws [] 0 (by simp) (by simp),
    fun m mw ws hm => wrapWordsAux_overwide m mw hm ws [] 0 le_rfl, ?_⟩
  have hctx : mkFontCtx { fontSize := "10" } "P" =
      ⟨10, "GoNotoKurrentRegular", "normal"⟩ := by decide
  have hlines : wrapLines (fun _ => (41 : ℚ)) 100 ["aa", "bb", "cc"] =
      [["aa", "bb"], ["cc"]] := by
    norm_num [wrapLines, wrapWordsAux]
  rw [renderTextNode]
  rw [if_neg (by decide)]
  simp only [hctx]
  simp only [show jsTrim "aa bb cc" = "aa bb cc" from by decide,
    show jsSplitWs "aa bb cc" = ["aa", "bb", "cc"] from by decide,
    hlines, lineHeightMult, jsOrS,
    show jsParseFloat "" = none from by
      simp [jsParseFloat, show jsParseFloatParts "" = none from by decide],
    show List.map (String.intercalate " ") [["aa", "bb"], ["cc"]] =
      ["aa bb", "cc"] from by decide,
    show (["aa bb", "cc"] : List String).enum = [(0, "aa bb"), (1, "cc")]
      from by decide,
    jsOrQ, List.map, List.length]
  norm_num
  simp

/-- C3 (witness): an over-wide word (measured 141 > 100) is still placed,
alone on its own line; and the produced line `["aa", "bb"]` of a fitting
wrap is non-empty and within the width. -/
theorem c3_word_wrap_witness :
    [("x" : String)] ∈ wrapLines (fun _ => (141 : ℚ)) 100 ["x"] ∧
    (["aa", "bb"] ≠ ([] : List String) ∧
      (((["aa", "bb"] : List String).map fun _ => (41 : ℚ)).sum ≤ 100 ∨
        ∃ w, (["aa", "bb"] : List String) = [w])) := by
  constructor
  · exact c3_word_wrap.2.2.1 (fun _ => 141) 100 ["x"] (fun s => by norm_num)
      "x" (by simp) (by norm_num)
  · refine c3_word_wrap.2.1 (fun _ => 41) 100 ["aa", "bb"] ["aa", "bb"] ?_
    norm_num [wrapLines, wrapWordsAux]

/-! ## Claim C9 — minimum font size 8 -/

theorem mkFontCtx_size (style : Style) (tag : String) :
    (mkFontCtx style tag).size = max (fontSizeChain style.fontSize tag) 8 := by
  unfold mkFontCtx
  split <;> rfl

theorem jsParseFloat_empty : jsParseFloat "" = none := by
  simp [jsParseFloat, show jsParseFloatParts "" = none from by decide]

/-- C9 (counterexample): with the default `jsPDF` scale factor `360/127`
(mm units, `72/25.4`), the measured height of a default-styled `P` text
is `10 * 1.2 / (360/127) = 127/30 < 9.6`, so measured text height is not
at least `8 ×` the line-height multiplier: `getTextDimensions` divides by
`pdf.internal.scaleFactor`. -/
theorem c9_height_below_eight_times_mult :
    (getTextDimensions (360 / 127) (fun _ _ => 0) "hi" {} "P").2 <
      8 * lineHeightMult {} := by
  have hctx : mkFontCtx {} "P" = ⟨10, "GoNotoKurrentRegular", "normal"⟩ := by
    decide
  simp only [getTextDimensions, hctx]
  norm_num [lineHeightMult, jsOrQ, jsParseFloat_empty]

/-- C9 (amended): the font size used to measure and to render is always
clamped to a minimum of 8 (`Math.max(fontSize, 8)` in both
`getTextDimensions` and `renderTextNode`), every `PlaceText` emitted by
`renderTextNode` carries a font of size at least 8, and the measured text
height is `fontSize × multiplier / scaleFactor`, hence at least
`8 × multiplier / scaleFactor` (not `8 × multiplier`: the division by
`pdf.internal.scaleFactor` lowers it). -/
theorem c9_font_size_clamped :
    (∀ (style : Style) (tag : String), 8 ≤ (mkFontCtx style tag).size) ∧
    (∀ (k : ℚ) (m : Measure) (text : String) (style : Style) (tag : String),
      (getTextDimensions k m text style tag).2 =
        ((max (fontSizeChain style.fontSize tag) 8 : ℤ) : ℚ) *
          lineHeightMult style / k) ∧
    (∀ (k : ℚ) (m : Measure) (text : String) (style : Style) (tag : String),
      0 < k → 0 ≤ lineHeightMult style →
      8 * lineHeightMult style / k ≤ (getTextDimensions k m text style tag).2) ∧
    (∀ (k : ℚ) (m : Measure) (text : String) (x y : ℚ) (style : Style)
        (mw : ℚ) (tag : String),
      ∀ ins ∈ (renderTextNode k m text x y style mw tag).2,
        ∃ t xx yy f c, ins = .placeText t xx yy f c ∧ 8 ≤ f.size) := by
  have hsize : ∀ (style : Style) (tag : String), 8 ≤ (mkFontCtx style tag).size := by
    intro style tag
    rw [mkFontCtx_size]
    exact le_max_right _ _
  refine ⟨hsize, ?_, ?_, ?_⟩
  · intro k m text style tag
    simp [getTextDimensions, mkFontCtx_size]
  · intro k m text style tag hk hmult
    have h8 : (8 : ℚ) ≤ ((max (fontSizeChain style.fontSize tag) 8 : ℤ) : ℚ) := by
      exact_mod_cast le_max_right _ _
    have hmul : 8 * lineHeightMult style ≤
        ((max (fontSizeChain style.fontSize tag) 8 : ℤ) : ℚ) * lineHeightMult style :=
      mul_le_mul_of_nonneg_right h8 hmult
    have := (div_le_div_iff_of_pos_right hk).mpr hmul
    simpa [getTextDimensions, mkFontCtx_size] using this
  · intro k m text x y style mw tag ins hins
    rw [renderTextNode] at hins
    split at hins
    · simp at hins
    · simp only [List.mem_map, Prod.exists] at hins
      obtain ⟨a, b, hab, hf⟩ := hins
      exact ⟨_, _, _, _, _, hf.symm, hsize style tag⟩

/-- C9 (witness): at scale factor 1 the default-styled measured height
meets the `8 × multiplier / scaleFactor` bound, and the `PlaceText`
emitted for a concrete run carries font size at least 8. -/
theorem c9_font_size_clamped_witness :
    8 * lineHeightMult {} / 1 ≤
      (getTextDimensions 1 (fun _ _ => 0) "hi" {} "P").2 ∧
    ∃ t xx yy f c,
      Instr.placeText "hi" 0 0 ⟨10, "GoNotoKurrentRegular", "normal"⟩ "black" =
        .placeText t xx yy f c ∧ 8 ≤ f.size := by
  have hrun : (renderTextNode 1 (fun _ _ => 0) "hi" 0 0 {} 100 "P").2 =
      [.placeText "hi" 0 0 ⟨10, "GoNotoKurrentRegular", "normal"⟩ "black"] := by
    rw [renderTextNode]
    rw [if_neg (by decide)]
    simp only [show mkFontCtx {} "P" = ⟨10, "GoNotoKurrentRegular", "normal"⟩
      from by decide]
    simp only [show jsTrim "hi" = "hi" from by decide,
      show jsSplitWs "hi" = ["hi"] from by decide,
      show wrapLines (fun w =>
          (fun (_ : FontCtx) (_ : String) => (0 : ℚ)) ⟨10, "GoNotoKurrentRegular", "normal"⟩
            (w ++ " ")) 100 ["hi"] = [["hi"]] from by
        norm_num [wrapLines, wrapWordsAux],
      show List.map (String.intercalate " ") [["hi"]] = ["hi"] from by decide,
      show (["hi"] : List String).enum = [(0, "hi")] from by decide,
      lineHeightMult, jsOrS, jsParseFloat_empty, jsOrQ, List.map]
    norm_num
    simp
  refine ⟨c9_font_size_clamped.2.2.1 1 (fun _ _ => 0) "hi" {} "P" (by norm_num)
    (by norm_num [lineHeightMult, jsOrQ, jsParseFloat_empty]), ?_⟩
  apply c9_font_size_clamped.2.2.2 1 (fun _ _ => 0) "hi" 0 0 {} 100 "P"
  rw [hrun]
  simp

/-! ## Claim C10 — whitespace-only text is a no-op -/

/-- C10: for text that trims to empty, `renderTextNode` returns the input
y unchanged and emits nothing, and `processNode` returns the state
unchanged (no cursor movement, no pending-inline change). -/
theorem c10_whitespace_text_noop :
    (∀ (k : ℚ) (m : Measure) (text : String) (x y : ℚ) (style : Style)
        (mw : ℚ) (tag : String), jsTrim text = "" →
      renderTextNode k m text x y style mw tag = (y, [])) ∧
    (∀ (env : Env) (ps : Style) (pt : String) (s : String) (st : EngState),
      jsTrim s = "" → processNode env ps pt (.text s) st = st) := by
  constructor
  · intro k m text x y style mw tag h
    rw [renderTextNode, if_pos h]
  · intro env ps pt s st h
    simp [processNode, h]

/-- C10 (witness): concrete whitespace-only inputs leave y, the
instruction list and the engine state unchanged. -/
theorem c10_whitespace_text_noop_witness :
    renderTextNode 1 (fun _ _ => 0) "  " 0 5 {} 100 "P" = (5, []) ∧
    processNode ⟨120, 110, 10, 1, fun _ _ => 0, false⟩ {} "P" (.text " ")
        ⟨10, 20, 0, 0, [], 0, []⟩ = ⟨10, 20, 0, 0, [], 0, []⟩ :=
  ⟨c10_whitespace_text_noop.1 1 (fun _ _ => 0) "  " 0 5 {} 100 "P" (by decide),
    c10_whitespace_text_noop.2 ⟨120, 110, 10, 1, fun _ _ => 0, false⟩ {} "P"
      " " ⟨10, 20, 0, 0, [], 0, []⟩ (by decide)⟩

/-! ## Claim C7 — painted height excludes margins -/

theorem jsParseFloat_of_parts (s : String) (sg : ℤ) (ip fp n : ℕ)
    (h : jsParseFloatParts s = some (sg, ip, fp, n)) :
    jsParseFloat s = some ((sg : ℚ) * ((ip : ℚ) + (fp : ℚ) / 10 ^ n)) := by
  simp [jsParseFloat, h]

/-- C7: the height handed to background/border painting is the children's
content contribution (`currentY` after children minus the content start)
plus the box's own vertical padding and vertical border; margins never
enter the painted height — they only shift the cursor before
(`margin.top`, observable as `elementY = 10 + 7` in the concrete run) and
after (`margin.bottom`) the box. -/
theorem c7_painted_height :
    (∀ (dims : Dims) (ch : ℚ),
      blockTotalHeight dims ch =
        ch + dims.padding.top + dims.padding.bottom +
          dims.border.top + dims.border.bottom) ∧
    (∀ (dims : Dims) (ch : ℚ) (e : Edges),
      blockTotalHeight { dims with margin := e } ch = blockTotalHeight dims ch) ∧
    (∀ (env : Env) (style : Style) (dims : Dims) (eX eY cY : ℚ) (st : EngState),
      (finishBlock env style dims eX eY cY st).out =
        st.out ++
          renderElementBackground env.scale eX eY (dims.innerWidth.getD 0)
            (blockTotalHeight dims (st.currentY - cY)) style dims ∧
      (finishBlock env style dims eX eY cY st).currentY =
        eY + blockTotalHeight dims (st.currentY - cY) + dims.margin.bottom) ∧
    (∀ (env : Env) (style : Style) (dims : Dims) (eX eY cY : ℚ) (st : EngState)
        (e : Edges),
      (finishBlock env style { dims with margin := e } eX eY cY st).out =
        (finishBlock env style dims eX eY cY st).out) ∧
    (processNode envA {} "BODY" blockBoxNode ⟨10, 10, 0, 0, [], 0, []⟩ =
      ⟨10, 36, 0, 0, [], 0,
        [.fillRect 10 (35 / 2) 100 (15 / 2) "blue",
          .strokeLine 10 (35 / 2) 110 (35 / 2) 1 "black",
          .strokeLine 10 25 110 25 4 "black"]⟩ ∧
      (36 : ℚ) = 10 + 7 + (0 + 2 + 3 + 1 + 4) + 9) := by
  refine ⟨fun dims ch => rfl, fun dims ch e => rfl,
    fun env style dims eX eY cY st => ⟨rfl, rfl⟩, ?_, ?_, by norm_num⟩
  · intro env style dims eX eY cY st e
    simp [finishBlock, renderElementBackground, drawBorderLine, blockTotalHeight]
  · have h2 : jsParseFloat "2" = some 2 := by
      rw [jsParseFloat_of_parts "2" 1 2 0 0 (by decide)]; norm_num
    have h3 : jsParseFloat "3" = some 3 := by
      rw [jsParseFloat_of_parts "3" 1 3 0 0 (by decide)]; norm_num
    have h1 : jsParseFloat "1" = some 1 := by
      rw [jsParseFloat_of_parts "1" 1 1 0 0 (by decide)]; norm_num
    have h4 : jsParseFloat "4" = some 4 := by
      rw [jsParseFloat_of_parts "4" 1 4 0 0 (by decide)]; norm_num
    have h7 : jsParseFloat "7" = some 7 := by
      rw [jsParseFloat_of_parts "7" 1 7 0 0 (by decide)]; norm_num
    have h9 : jsParseFloat "9" = some 9 := by
      rw [jsParseFloat_of_parts "9" 1 9 0 0 (by decide)]; norm_num
    simp only [processNode, blockBoxNode, envA, measureZero]
    norm_num [flushInlineElements, checkForNewPage, estimatedBlockHeight,
      getElementDimensions, finishBlock, blockTotalHeight,
      renderElementBackground, drawBorderLine, Env.contentWidth,
      jsOrQ, jsOrS, jsParseFloat_empty, h1, h2, h3, h4, h7, h9,
      show toString (tagDefaultSize "DIV") ++ "px" = "10px" from by decide,
      show jsToUpper "DIV" = "DIV" from by decide,
      show ((("block" : String) = "none") ∨ (("" : String) = "hidden")) = False
        from by simp]
    simp [processChildren]
    norm_num

/-! ## Claim C5 — image handling -/

theorem getElementDimensions_isBlock (style : Style) (cw : ℚ) :
    (getElementDimensions style cw).isBlock =
      decide (style.display = "block" ∨ style.display = "flex" ∨
        style.display = "grid" ∨ style.display = "table") := rfl

/-- C5 (counterexample): the traversal does not implement the claimed
image policy — a non-block `IMG` node advances the cursor by the fixed
placeholder 10 regardless of the image's (unavailable) dimensions,
instead of contributing zero height. -/
theorem c5_img_placeholder_advance :
    processNode envA {} "BODY" imgInlineNode ⟨10, 10, 0, 0, [], 0, []⟩ =
      ⟨10, 20, 0, 0, [], 0, []⟩ ∧ (20 : ℚ) ≠ 10 := by
  constructor
  · simp only [processNode, imgInlineNode, envA]
    norm_num [flushInlineElements,
      show jsToUpper "IMG" = "IMG" from by decide,
      show ((("inline" : String) = "none") ∨ (("" : String) = "hidden")) = False
        from by simp,
      getElementDimensions_isBlock]
    simp [getElementDimensions]
  · norm_num

/-- C5 (amended): `handleImageElement` itself implements the claimed
policy — unavailable images (not `complete`, or zero natural width)
return the y unchanged with no instruction; available images are scaled
down only (scale ≤ 1 whenever the effective width is positive), preserve
the aspect ratio of the effective dimensions, and advance y by exactly
the scaled height — but the traversal never calls it: `processNode`
advances the cursor by the fixed placeholder 10 for every non-block,
visible `IMG` element. -/
theorem c5_image_policy :
    (∀ (img : ImgData) (x y mw : ℚ),
      img.complete = false ∨ img.naturalWidth = 0 →
      handleImageElement img x y mw = (y, [])) ∧
    (∀ (img : ImgData) (mw : ℚ), 0 < imgWidthOf img →
      imgScaleOf img mw ≤ 1) ∧
    (∀ (img : ImgData) (x y mw : ℚ),
      img.complete = true → ¬img.naturalWidth = 0 →
      (handleImageElement img x y mw).1 =
        y + imgHeightOf img * imgScaleOf img mw ∧
      imgWidthOf img * imgScaleOf img mw * imgHeightOf img =
        imgHeightOf img * imgScaleOf img mw * imgWidthOf img) ∧
    (∀ (env : Env) (ps : Style) (pt tag hA : String) (style : Style)
        (children : List DomNode) (st : EngState),
      jsToUpper tag = "IMG" →
      ¬(style.display = "none" ∨ style.visibility = "hidden") →
      ¬(style.display = "block" ∨ style.display = "flex" ∨
        style.display = "grid" ∨ style.display = "table") →
      processNode env ps pt (.element tag hA style children) st =
        { flushInlineElements env st with
            currentY := (flushInlineElements env st).currentY + 10 }) := by
  refine ⟨?_, ?_, ?_, ?_⟩
  · intro img x y mw h
    unfold handleImageElement
    rw [if_pos h]
  · intro img mw h
    unfold imgScaleOf
    split
    · exact le_of_lt ((div_lt_one h).mpr (by assumption))
    · exact le_refl 1
  · intro img x y mw h1 h2
    refine ⟨?_, by ring⟩
    simp [handleImageElement, h1, h2]
  · intro env ps pt tag hA style children st htag hvis hblk
    have hb : ∀ fs : String,
        decide ((Style.display { style with fontSize := fs }) = "block" ∨
          (Style.display { style with fontSize := fs }) = "flex" ∨
          (Style.display { style with fontSize := fs }) = "grid" ∨
          (Style.display { style with fontSize := fs }) = "table") = false :=
      fun fs => decide_eq_false (by simpa using hblk)
    have hb0 : decide (style.display = "block" ∨ style.display = "flex" ∨
        style.display = "grid" ∨ style.display = "table") = false :=
      decide_eq_false hblk
    simp only [processNode]
    rw [if_neg hvis]
    by_cases hfs : style.fontSize = "" <;>
      simp [hfs, htag, getElementDimensions_isBlock, hb, hb0]

/-- C5 (witness): concrete instances of the `handleImageElement` policy
and of the traversal's fixed `+10` advance for an inline image. -/
theorem c5_image_policy_witness :
    handleImageElement ⟨false, 5, 5, "", "", "i"⟩ 0 0 100 = (0, []) ∧
    imgScaleOf ⟨true, 50, 40, "", "", "i"⟩ 30 ≤ 1 ∧
    (handleImageElement ⟨true, 50, 40, "", "", "i"⟩ 0 0 30).1 =
      0 + imgHeightOf ⟨true, 50, 40, "", "", "i"⟩ *
        imgScaleOf ⟨true, 50, 40, "", "", "i"⟩ 30 ∧
    processNode envA {} "BODY" imgInlineNode ⟨10, 10, 0, 0, [], 0, []⟩ =
      { flushInlineElements envA ⟨10, 10, 0, 0, [], 0, []⟩ with
          currentY :=
            (flushInlineElements envA ⟨10, 10, 0, 0, [], 0, []⟩).currentY + 10 } := by
  refine ⟨c5_image_policy.1 ⟨false, 5, 5, "", "", "i"⟩ 0 0 100 (Or.inl rfl),
    c5_image_policy.2.1 ⟨true, 50, 40, "", "", "i"⟩ 30 ?_,
    (c5_image_policy.2.2.1 ⟨true, 50, 40, "", "", "i"⟩ 0 0 30 rfl
      (by norm_num)).1,
    c5_image_policy.2.2.2 envA {} "BODY" "IMG" "" { display := "inline" } []
      ⟨10, 10, 0, 0, [], 0, []⟩ (by decide) (by decide) (by decide)⟩
  norm_num [imgWidthOf, jsOrQ, jsParseFloat_empty]

/-! ## Claim C6 — block-entry pre-check estimate and no mid-box split -/

/-- C6 (counterexample): for a block with vertical padding 2/3, vertical
border 5/5 and line height 10, the engine's pre-check estimate is
`2 + 3 + 10 = 15`, while the claimed "padding plus border plus one line
height" is `25`: border widths are not part of the estimate. -/
theorem c6_estimate_omits_border :
    estimatedBlockHeight "DIV" "" estNoBorderStyle
        (getElementDimensions estNoBorderStyle 100) = 15 ∧
    specEstimatedMinHeight (getElementDimensions estNoBorderStyle 100)
        (jsOrQ (jsParseFloat estNoBorderStyle.lineHeight) 20) = 25 ∧
    (15 : ℚ) ≠ 25 := by
  have h2 : jsParseFloat "2" = some 2 := by
    rw [jsParseFloat_of_parts "2" 1 2 0 0 (by decide)]; norm_num
  have h3 : jsParseFloat "3" = some 3 := by
    rw [jsParseFloat_of_parts "3" 1 3 0 0 (by decide)]; norm_num
  have h5 : jsParseFloat "5" = some 5 := by
    rw [jsParseFloat_of_parts "5" 1 5 0 0 (by decide)]; norm_num
  have h10 : jsParseFloat "10" = some 10 := by
    rw [jsParseFloat_of_parts "10" 1 10 0 0 (by decide)]; norm_num
  refine ⟨?_, ?_, by norm_num⟩
  · norm_num [estimatedBlockHeight, getElementDimensions, estNoBorderStyle,
      jsOrQ, jsParseFloat_empty, h2, h3, h10,
      show (("DIV" : String) = "IMG") = False from by simp]
  · norm_num [specEstimatedMinHeight, getElementDimensions, estNoBorderStyle,
      jsOrQ, jsParseFloat_empty, h2, h3, h5, h10]

/-- C6 (amended): the block-entry pre-check estimate is the vertical
padding plus (for `IMG`) the `height` attribute `|| 100`, or
`parseFloat(style.lineHeight) || 20` otherwise — it contains no border
term and is invariant under the box's border widths; the pre-check fires
once on entry, and a block whose realized height exceeds the page content
height is still painted once, in full, with no mid-box split (the
120×100-page run paints a single 200-high rectangle after the single
entry page break). -/
theorem c6_precheck_estimate :
    (∀ (tag hA : String) (style : Style) (dims : Dims),
      estimatedBlockHeight tag hA style dims =
        dims.padding.top + dims.padding.bottom +
          (if tag = "IMG" then jsOrQ (jsParseFloat hA) 100
           else jsOrQ (jsParseFloat style.lineHeight) 20)) ∧
    (∀ (tag hA : String) (style : Style) (cw : ℚ) (b1 b2 b3 b4 : String),
      estimatedBlockHeight tag hA
          { style with
              borderTopWidth := b1
              borderRightWidth := b2
              borderBottomWidth := b3
              borderLeftWidth := b4 }
          (getElementDimensions
            { style with
                borderTopWidth := b1
                borderRightWidth := b2
                borderBottomWidth := b3
                borderLeftWidth := b4 } cw) =
        estimatedBlockHeight tag hA style (getElementDimensions style cw)) ∧
    (processNode envPage100 {} "BODY" tallBlockNode ⟨10, 10, 0, 0, [], 0, []⟩ =
      ⟨10, 210, 0, 0, [], 1, [.addPage, .fillRect 10 10 100 200 "red"]⟩ ∧
      (200 : ℚ) > 100 - 10) := by
  refine ⟨fun tag hA style dims => rfl, ?_, ?_, by norm_num⟩
  · intro tag hA style cw b1 b2 b3 b4
    simp [estimatedBlockHeight, getElementDimensions]
  · have h200 : jsParseFloat "200" = some 200 := by
      rw [jsParseFloat_of_parts "200" 1 200 0 0 (by decide)]; norm_num
    simp only [processNode, tallBlockNode, envPage100, measureZero]
    norm_num [flushInlineElements, checkForNewPage, estimatedBlockHeight,
      getElementDimensions, finishBlock, blockTotalHeight,
      renderElementBackground, drawBorderLine, Env.contentWidth,
      jsOrQ, jsOrS, jsParseFloat_empty, h200,
      show toString (tagDefaultSize "P") ++ "px" = "10px" from by decide,
      show jsToUpper "P" = "P" from by decide,
      show ((("block" : String) = "none") ∨ (("" : String) = "hidden")) = False
        from by simp]
    simp [processChildren]
    norm_num

/-! ## Claim C8 — paint ordering -/

/-- C8 (counterexample): a block's background is not always emitted after
all of its children's instructions — buffered inline text is flushed
lazily, so the `DIV`'s own text child is drawn *after* the `DIV`'s
background fill: the run emits `[FillRect, PlaceText]`. -/
theorem c8_text_after_ancestor_paint :
    insertHtmlToPdf envA divWithText =
      ⟨10, 22, 0, 0, [], 0,
        [.fillRect 10 10 100 0 "red",
          .placeText "hi" 10 10 ⟨10, "GoNotoKurrentRegular", "normal"⟩ "black"]⟩ ∧
    (insertHtmlToPdf envA divWithText).out.map Instr.kind = [.rect, .text] := by
  have hctx : mkFontCtx
      { display := "block", backgroundColor := "red", fontSize := "10px" }
      "DIV" = ⟨10, "GoNotoKurrentRegular", "normal"⟩ := by decide
  have htext : getTextDimensions 1 measureZero "hi"
      { display := "block", backgroundColor := "red", fontSize := "10px" }
      "DIV" = (0, 12) := by
    simp [getTextDimensions, hctx, lineHeightMult, jsParseFloat_empty, jsOrQ,
      measureZero]
    norm_num
  have hrender : renderTextNode 1 measureZero "hi" 10 10
      { display := "block", backgroundColor := "red", fontSize := "10px" }
      100 "DIV" =
      (22, [.placeText "hi" 10 10 ⟨10, "GoNotoKurrentRegular", "normal"⟩ "black"]) := by
    rw [renderTextNode]
    rw [if_neg (by decide)]
    simp only [hctx]
    simp only [show jsTrim "hi" = "hi" from by decide,
      show jsSplitWs "hi" = ["hi"] from by decide,
      measureZero,
      show wrapLines (fun w =>
          (fun (_ : FontCtx) (_ : String) => (0 : ℚ))
            ⟨10, "GoNotoKurrentRegular", "normal"⟩ (w ++ " ")) 100 ["hi"] =
        [["hi"]] from by norm_num [wrapLines, wrapWordsAux],
      show List.map (String.intercalate " ") [["hi"]] = ["hi"] from by decide,
      show (["hi"] : List String).enum = [(0, "hi")] from by decide,
      lineHeightMult, jsOrS, jsParseFloat_empty, jsOrQ, List.map]
    norm_num
    simp
  have hmain : insertHtmlToPdf envA divWithText =
      ⟨10, 22, 0, 0, [], 0,
        [.fillRect 10 10 100 0 "red",
          .placeText "hi" 10 10 ⟨10, "GoNotoKurrentRegular", "normal"⟩ "black"]⟩ := by
    simp only [insertHtmlToPdf, divWithText, envA]
    try norm_num [processNode, processChildren, flushInlineElements,
      checkForNewPage, estimatedBlockHeight, getElementDimensions, finishBlock,
      blockTotalHeight, renderElementBackground, drawBorderLine,
      Env.contentWidth, htext, hrender, jsOrQ, jsOrS, jsParseFloat_empty,
      show toString (tagDefaultSize "DIV") ++ "px" = "10px" from by decide,
      show jsToUpper "DIV" = "DIV" from by decide,
      show jsTrim "hi" = "hi" from by decide,
      show ((("block" : String) = "none") ∨ (("" : String) = "hidden")) = False
        from by simp]
    try simp [processNode, processChildren, flushInlineElements,
      checkForNewPage, estimatedBlockHeight, getElementDimensions, finishBlock,
      blockTotalHeight, renderElementBackground, drawBorderLine,
      Env.contentWidth, htext, hrender, jsOrQ, jsOrS, jsParseFloat_empty,
      show jsTrim "hi" = "hi" from by decide]
    try norm_num [htext, hrender, flushInlineElements, checkForNewPage,
      finishBlock, blockTotalHeight, renderElementBackground, drawBorderLine,
      Env.contentWidth, jsOrQ, jsOrS, jsParseFloat_empty]
    try simp [htext, hrender, flushInlineElements, checkForNewPage,
      finishBlock, blockTotalHeight, renderElementBackground, drawBorderLine,
      jsOrS]
    try norm_num
  exact ⟨hmain, by rw [hmain]; rfl⟩

/-- C8 (amended): a block's own background/border instructions are
appended after everything emitted up to its exit — in particular after
all nested *block* children's instructions (see the nested run: the inner
block's fill precedes the outer's) — and `renderElementBackground` emits
the background first and then the border sides in the fixed order top,
right, bottom, left, each a `StrokeLine` with its own color and width;
however pending inline text may be flushed only after an ancestor's
paint (see the counterexample). -/
theorem c8_paint_ordering :
    (∀ (env : Env) (style : Style) (dims : Dims) (eX eY cY : ℚ)
        (st : EngState),
      (finishBlock env style dims eX eY cY st).out =
        st.out ++
          renderElementBackground env.scale eX eY (dims.innerWidth.getD 0)
            (blockTotalHeight dims (st.currentY - cY)) style dims) ∧
    (∀ (k x y w h : ℚ) (style : Style) (dims : Dims),
      renderElementBackground k x y w h style dims =
        (if style.backgroundColor ≠ "" ∧ style.backgroundColor ≠ "transparent" ∧
            style.backgroundColor ≠ "rgba(0, 0, 0, 0)" then
          [.fillRect (x + dims.border.left / 2) (y + dims.border.top / 2)
            (w - (dims.border.left + dims.border.right) / 2)
            (h - (dims.border.top + dims.border.bottom) / 2)
            style.backgroundColor]
        else []) ++
        drawBorderLine k x (y + dims.border.top / 2) (x + w)
          (y + dims.border.top / 2) dims.border.top style.borderTopColor ++
        drawBorderLine k (x + w - dims.border.right / 2) y
          (x + w - dims.border.right / 2) (y + h) dims.border.right
          style.borderRightColor ++
        drawBorderLine k x (y + h - dims.border.bottom / 2) (x + w)
          (y + h - dims.border.bottom / 2) dims.border.bottom
          style.borderBottomColor ++
        drawBorderLine k (x + dims.border.left / 2) y
          (x + dims.border.left / 2) (y + h) dims.border.left
          style.borderLeftColor) ∧
    insertHtmlToPdf envA nestedDivs =
      ⟨10, 10, 0, 0, [], 0,
        [.fillRect 10 10 100 0 "blue", .fillRect 10 10 100 0 "red"]⟩ ∧
    renderElementBackground 1 0 0 50 30 borderDemoStyle borderDemoDims =
      [.fillRect 1 1 48 28 "green",
        .strokeLine 0 1 50 1 2 "t",
        .strokeLine 49 0 49 30 2 "r",
        .strokeLine 0 29 50 29 2 "b",
        .strokeLine 1 0 1 30 2 "l"] := by
  refine ⟨fun env style dims eX eY cY st => rfl,
    fun k x y w h style dims => rfl, ?_, ?_⟩
  · simp only [insertHtmlToPdf, nestedDivs, envA]
    try norm_num [processNode, processChildren, flushInlineElements,
      checkForNewPage, estimatedBlockHeight, getElementDimensions, finishBlock,
      blockTotalHeight, renderElementBackground, drawBorderLine,
      Env.contentWidth, jsOrQ, jsOrS, jsParseFloat_empty,
      show toString (tagDefaultSize "DIV") ++ "px" = "10px" from by decide,
      show jsToUpper "DIV" = "DIV" from by decide,
      show ((("block" : String) = "none") ∨ (("" : String) = "hidden")) = False
        from by simp]
    try simp [processNode, processChildren, flushInlineElements,
      checkForNewPage, estimatedBlockHeight, getElementDimensions, finishBlock,
      blockTotalHeight, renderElementBackground, drawBorderLine,
      Env.contentWidth, jsOrQ, jsOrS, jsParseFloat_empty]
    try norm_num [flushInlineElements, checkForNewPage, finishBlock,
      blockTotalHeight, renderElementBackground, drawBorderLine,
      Env.contentWidth, jsOrQ, jsOrS, jsParseFloat_empty]
    try simp [flushInlineElements, checkForNewPage, finishBlock,
      blockTotalHeight, renderElementBackground, drawBorderLine, jsOrS]
    try norm_num
  · norm_num [renderElementBackground, drawBorderLine, borderDemoStyle,
      borderDemoDims, jsOrS,
      show (("green" : String) ≠ "" ∧ ("green" : String) ≠ "transparent" ∧
        ("green" : String) ≠ "rgba(0, 0, 0, 0)") = True from by simp,
      show (("t" : String) = "") = False from by simp,
      show (("r" : String) = "") = False from by simp,
      show (("b" : String) = "") = False from by simp,
      show (("l" : String) = "") = False from by simp]

/-! ## Claim C4 — no fail-fast on degenerate page geometry -/

/-- Full evaluation of the engine on the degenerate geometry `envBad`
(content width −30, break limit −10): the run completes normally, adds
two pages (every pre-check fires) and still draws the text. -/
theorem insertHtmlToPdf_envBad_eval :
    insertHtmlToPdf envBad badGeometryDoc =
      ⟨20, 32, 0, 0, [], 2,
        [.addPage, .addPage,
          .placeText "hi" 20 20 ⟨10, "GoNotoKurrentRegular", "normal"⟩ "black"]⟩ := by
  have hctx : mkFontCtx { display := "block", fontSize := "10px" } "BODY" =
      ⟨10, "GoNotoKurrentRegular", "normal"⟩ := by decide
  have htext : getTextDimensions 1 measureZero "hi"
      { display := "block", fontSize := "10px" } "BODY" = (0, 12) := by
    simp [getTextDimensions, hctx, lineHeightMult, jsParseFloat_empty, jsOrQ,
      measureZero]
    norm_num
  have hrender : renderTextNode 1 measureZero "hi" 20 20
      { display := "block", fontSize := "10px" } (-30) "BODY" =
      (32, [.placeText "hi" 20 20 ⟨10, "GoNotoKurrentRegular", "normal"⟩ "black"]) := by
    rw [renderTextNode]
    rw [if_neg (by decide)]
    simp only [hctx]
    simp only [show jsTrim "hi" = "hi" from by decide,
      show jsSplitWs "hi" = ["hi"] from by decide,
      measureZero,
      show wrapLines (fun w =>
          (fun (_ : FontCtx) (_ : String) => (0 : ℚ))
            ⟨10, "GoNotoKurrentRegular", "normal"⟩ (w ++ " ")) (-30) ["hi"] =
        [["hi"]] from by norm_num [wrapLines, wrapWordsAux],
      show List.map (String.intercalate " ") [["hi"]] = ["hi"] from by decide,
      show (["hi"] : List String).enum = [(0, "hi")] from by decide,
      lineHeightMult, jsOrS, jsParseFloat_empty, jsOrQ, List.map]
    norm_num
    simp
  simp only [insertHtmlToPdf, badGeometryDoc, envBad]
  try norm_num [processNode, processChildren, flushInlineElements,
    checkForNewPage, estimatedBlockHeight, getElementDimensions, finishBlock,
    blockTotalHeight, renderElementBackground, drawBorderLine,
    Env.contentWidth, htext, hrender, jsOrQ, jsOrS, jsParseFloat_empty,
    show toString (tagDefaultSize "BODY") ++ "px" = "10px" from by decide,
    show jsToUpper "BODY" = "BODY" from by decide,
    show jsTrim "hi" = "hi" from by decide,
    show ((("block" : String) = "none") ∨ (("" : String) = "hidden")) = False
      from by simp]
  try simp [processNode, processChildren, flushInlineElements, checkForNewPage,
    estimatedBlockHeight, getElementDimensions, finishBlock, blockTotalHeight,
    renderElementBackground, drawBorderLine, Env.contentWidth, htext, hrender,
    jsOrQ, jsOrS, jsParseFloat_empty,
    show jsTrim "hi" = "hi" from by decide]
  try norm_num [htext, hrender, flushInlineElements, checkForNewPage,
    finishBlock, blockTotalHeight, renderElementBackground, drawBorderLine,
    Env.contentWidth, jsOrQ, jsOrS, jsParseFloat_empty]
  try simp [htext, hrender, flushInlineElements, checkForNewPage, finishBlock,
    blockTotalHeight, renderElementBackground, drawBorderLine, jsOrS]
  try norm_num

/-- C4 (counterexample): with page geometry that is non-positive after
padding (content width −30, content height −30), the engine does not
fail fast — it lays out content and emits a `PlaceText`, so no condition
aborts the traversal. -/
theorem c4_no_failfast :
    Env.contentWidth envBad < 0 ∧
    envBad.pageHeight - envBad.pagePadding * 2 < 0 ∧
    (insertHtmlToPdf envBad badGeometryDoc).out.map Instr.kind =
      [.page, .page, .text] := by
  refine ⟨by norm_num [Env.contentWidth, envBad], by norm_num [envBad], ?_⟩
  rw [insertHtmlToPdf_envBad_eval]
  rfl

/-- C4 (amended): the engine performs no page-geometry validation and has
no abort path: even on a page whose content area is negative the
traversal runs to completion and produces drawing instructions (degrading
silently), rather than surfacing an explicit error before layout. -/
theorem c4_no_geometry_abort :
    insertHtmlToPdf envBad badGeometryDoc =
      ⟨20, 32, 0, 0, [], 2,
        [.addPage, .addPage,
          .placeText "hi" 20 20 ⟨10, "GoNotoKurrentRegular", "normal"⟩ "black"]⟩ ∧
    (insertHtmlToPdf envBad badGeometryDoc).out ≠ [] :=
  ⟨insertHtmlToPdf_envBad_eval, by rw [insertHtmlToPdf_envBad_eval]; simp⟩
